import Mathlib

/-!
Verification development for the DocDecorator repository: a shallow Lean
embedding of its document-manipulation functions (content.py, element.py,
part.py, style.py, doc_decorate.py) together with theorems settling the
specification claims.

The underlying word-processing object model (documents, paragraphs, runs,
tables, rows, columns, cells) is an external collaborator of the repository
and is modelled from the specification: a document carries lists of
top-level paragraphs and tables, a table is a row-major grid of cells
(rows and columns being derived views over the grid), a cell carries
paragraphs, a paragraph carries runs, and a run carries text plus
character-level formatting fields.
-/

namespace DocDecorator

/-- Errors raised by the embedded Python code.  Assertion failures are
distinguished by the condition they check; the specification calls them
`InvalidArgument` (non-positive table dimensions), `InsufficientData`
(fewer data items than cells) and `OutOfRange` (bad index). -/
inductive PyError where
  | typeError
  | attributeError
  | keyError
  | valueError
  | indexError
  | zeroDivisionError
  | invalidArgument
  | insufficientData
  | outOfRange
deriving Repr, DecidableEq

deriving instance DecidableEq for Except

/-- Collaborator RGBColor value: an RGB byte triple. -/
structure RGBColor where
  r : Nat
  g : Nat
  b : Nat
deriving Repr, DecidableEq

/-- Run: the smallest styled span of text.  `rFonts` holds the attributes
set through the XML rFonts element, keyed by qualified attribute name. -/
structure Run where
  text : String
  fontName : Option String := none
  rFonts : List (String × String) := []
  size : Option Nat := none
  color : Option RGBColor := none
  bold : Option Bool := none
  italic : Option Bool := none
deriving Repr, DecidableEq

/-- Paragraph: an ordered sequence of runs. -/
structure Paragraph where
  runs : List Run := []
deriving Repr, DecidableEq

/-- Cell: contains one or more paragraphs; a fresh cell holds a single
empty paragraph. -/
structure Cell where
  paragraphs : List Paragraph := [⟨[]⟩]
deriving Repr, DecidableEq

/-- Table: a row-major grid of cells; the outer list is the list of rows.
Row and column objects of the collaborator are derived views over it. -/
structure Table where
  grid : List (List Cell)
deriving Repr, DecidableEq

/-- Document: root container of body paragraphs and tables. -/
structure PyDoc where
  paragraphs : List Paragraph := []
  tables : List Table := []
deriving Repr, DecidableEq

/-- A fresh empty cell, as created inside a new table row. -/
def emptyCell : Cell := ⟨[⟨[]⟩]⟩

namespace part

/-- Embedding of part.get_table_row_length: `len(table.rows)`. -/
def get_table_row_length (t : Table) : Nat := t.grid.length

/-- Embedding of part.get_table_column_length: `len(table.columns)`; the
collaborator exposes one column view per cell of a grid row. -/
def get_table_column_length (t : Table) : Nat := (t.grid.headD []).length

/-- Cells of the column view at index j, top to bottom. -/
def columnCells (t : Table) (j : Nat) : List Cell :=
  t.grid.filterMap (fun row => row[j]?)

/-- Embedding of part.get_row_in_table: asserts `0 < row_index < row count`
and returns `table.rows[row_index]` (identified with its list of cells). -/
def get_row_in_table (t : Table) (row_index : Int) : Except PyError (List Cell) :=
  if 0 < row_index ∧ row_index < (get_table_row_length t : Int) then
    .ok (t.grid.getD row_index.toNat [])
  else .error .outOfRange

/-- Embedding of part.get_column_in_table: asserts
`0 < column_index < column count` and returns `table.columns[column_index]`
(identified with its list of cells). -/
def get_column_in_table (t : Table) (column_index : Int) : Except PyError (List Cell) :=
  if 0 < column_index ∧ column_index < (get_table_column_length t : Int) then
    .ok (columnCells t column_index.toNat)
  else .error .outOfRange

end part

namespace DOCXElement

/-- Embedding of element.DOCXElement.get_cells_of_table: `table._cells`,
the collaborator's row-major flattened cell list, a plain (non-callable)
list attribute. -/
def get_cells_of_table (t : Table) : List Cell := t.grid.flatten

/-- Table element argument of the polymorphic lookups: a whole table, a row
view, a column view, or a single cell.  Row and column views are identified
with the list of cells they expose. -/
inductive TableElement where
  | table (t : Table)
  | row (cells : List Cell)
  | column (cells : List Cell)
  | cell (c : Cell)

/-- Python semantics of calling a list value as a function, `xs(...)`:
list objects are not callable, so a TypeError is raised. -/
def callList (_ : List Cell) : Except PyError (List Cell) :=
  .error .typeError

/-- Embedding of element.DOCXElement.get_cells_of_table_element.  The Table
branch evaluates `element._cells()`: `_cells` is the plain list attribute
(get_cells_of_table reads it without parentheses), so the parentheses call
the list itself. -/
def get_cells_of_table_element : TableElement → Except PyError (List Cell)
  | .table t => callList (get_cells_of_table t)
  | .cell c => .ok [c]
  | .row cells => .ok cells
  | .column cells => .ok cells

/-- Embedding of element.DOCXElement.get_paragraphs_of_table_element:
extends an accumulator with each cell's paragraphs in cell order. -/
def get_paragraphs_of_table_element (e : TableElement) :
    Except PyError (List Paragraph) := do
  let cells ← get_cells_of_table_element e
  return (cells.map Cell.paragraphs).flatten

/-- Embedding of element.DOCXElement.get_runs_in_table_element: extends an
accumulator with each paragraph's runs in paragraph order. -/
def get_runs_in_table_element (e : TableElement) : Except PyError (List Run) := do
  let ps ← get_paragraphs_of_table_element e
  return (ps.map Paragraph.runs).flatten

end DOCXElement

/-- Text content of one paragraph: concatenation of its runs' texts. -/
def paragraphText (p : Paragraph) : String :=
  String.join (p.runs.map Run.text)

/-- Text content of a cell: its paragraphs' texts joined by newlines, as
exposed by the collaborator's cell text getter. -/
def cellText (c : Cell) : String :=
  String.intercalate "\n" (c.paragraphs.map paragraphText)

/-- Result of the collaborator's cell text setter `cell.text = s`: the cell
content is replaced by a single paragraph holding a single run with text s. -/
def cellOfText (s : String) : Cell := ⟨[⟨[{ text := s }]⟩]⟩

namespace DocContent

/-- Collaborator Table.add_row: appends one fresh row with one empty cell
per table column. -/
def addRow (t : Table) : Table :=
  ⟨t.grid ++ [List.replicate (part.get_table_column_length t) emptyCell]⟩

/-- Assignment target `row.cells[index].text = s` for the last appended
row: sets the text of that row's cell at the given index. -/
def setRowCellText (t : Table) (rowIdx cellIdx : Nat) (s : String) : Table :=
  ⟨t.grid.set rowIdx ((t.grid.getD rowIdx []).set cellIdx (cellOfText s))⟩

/-- Dynamic value held by the Python loop variable `row` of
content.DocContent.append_rows after the first statement of the loop body:
the name no longer holds the loop integer but the freshly appended row
object (recorded by its index in the grid). -/
inductive RowVar where
  | rowObj (idx : Nat)

/-- Python multiplication `row * n` where `row` holds a table row object:
row objects do not support `*`, so a TypeError is raised. -/
def rowVarMul (_ : RowVar) (_ : Nat) : Except PyError Nat :=
  .error .typeError

/-- Embedding of content.DocContent.append_rows.  `column_length` is
`len(table.rows[0])`, the number of cells of the first row view; `rows` is
`int(len(data) / column_length)`.  Inside the outer loop the variable `row`
is immediately reassigned to the object returned by `table.add_row()`, so
the data index `row * column_length + index` multiplies a row object by an
integer. -/
def append_rows (t : Table) (data : List String) : Except PyError Table :=
  match t.grid.head? with
  | none => .error .indexError
  | some row0 =>
    let column_length := row0.length
    if column_length = 0 then .error .zeroDivisionError
    else
      let rows := data.length / column_length
      (List.range rows).foldlM
        (fun acc _ =>
          let acc2 := addRow acc
          let rowV : RowVar := .rowObj (acc2.grid.length - 1)
          (List.range column_length).foldlM
            (fun acc3 index => do
              let k ← rowVarMul rowV column_length
              let s ←
                match data[k + index]? with
                | some s => Except.ok s
                | none => Except.error PyError.indexError
              Except.ok (setRowCellText acc3 (acc3.grid.length - 1) index s))
            acc2)
        t

end DocContent

/-- A run freshly added with the given text. -/
def mkRun (s : String) : Run := { text := s }

/-- Collaborator paragraph creation from text (used by add_paragraph and
insert_paragraph_before): the new paragraph holds one run with the text,
or no run when the text is empty. -/
def paragraphOfText (s : String) : Paragraph :=
  ⟨if s = "" then [] else [mkRun s]⟩

namespace DocContent

/-- Embedding of content.DocContent.insert_paragraph_before for an integer
position: element.DOCXElement.get_paragraph_by_index asserts
`0 <= index < len(paragraphs)` (the OutOfRange condition, raised before any
mutation), then the collaborator inserts the new paragraph directly before
the one at that index. -/
def insert_paragraph_before (doc : PyDoc) (text : String) (position : Int) :
    Except PyError (PyDoc × Paragraph) :=
  if 0 ≤ position ∧ position < (doc.paragraphs.length : Int) then
    let p := paragraphOfText text
    .ok ({ doc with paragraphs := doc.paragraphs.insertIdx position.toNat p }, p)
  else .error .outOfRange

end DocContent

/-- Heap of collaborator document objects; facades refer to documents by
heap index, which makes object identity ("wraps d itself") expressible. -/
structure Heap where
  docs : List PyDoc
deriving Repr, DecidableEq

/-- Argument accepted by the DocContent constructor: a file path, an
existing document object, an existing DocContent facade, or None. -/
inductive DocArg where
  | path (s : String)
  | document (ref : Nat)
  | content (ref : Nat)
  | noneArg

/-- Value held by the self.doc field of a DocContent facade: a document
reference, or — through the constructor's DocContent branch — another
facade. -/
inductive DocField where
  | docRef (ref : Nat)
  | contentRef (ref : Nat)
deriving Repr, DecidableEq

namespace DocContent

/-- Embedding of content.DocContent.__init__ (openFile models the
collaborator docx.Document(path)).  The branches test `isinstance(doc, str)`
then `isinstance(doc, DocContent)`; anything else — including an existing
Document object — falls to the else branch, which allocates a fresh empty
document. -/
def init (openFile : String → PyDoc) (h : Heap) (arg : DocArg) : Heap × DocField :=
  match arg with
  | .path s => (⟨h.docs ++ [openFile s]⟩, .docRef h.docs.length)
  | .content r => (h, .contentRef r)
  | .document _ => (⟨h.docs ++ [⟨[], []⟩]⟩, .docRef h.docs.length)
  | .noneArg => (⟨h.docs ++ [⟨[], []⟩]⟩, .docRef h.docs.length)

/-- Embedding of content.DocContent.add_paragraph on a facade whose doc
field holds the document reference r: appends one paragraph to that
document. -/
def add_paragraph (h : Heap) (r : Nat) (text : String) : Heap :=
  ⟨h.docs.set r
    (let d := h.docs.getD r ⟨[], []⟩
     { d with paragraphs := d.paragraphs ++ [paragraphOfText text] })⟩

end DocContent

/-- Core of Python str.replace for a non-empty pattern `p :: ps`: scans the
text left to right, replacing each occurrence of the pattern and resuming
after the replaced stretch. -/
def pyReplaceCore (p : Char) (ps rep : List Char) : List Char → List Char
  | [] => []
  | c :: rest =>
    if (p :: ps).isPrefixOf (c :: rest) then
      rep ++ pyReplaceCore p ps rep (rest.drop ps.length)
    else
      c :: pyReplaceCore p ps rep rest
termination_by s => s.length
decreasing_by
  · simp only [List.length_drop, List.length_cons]
    omega
  · simp only [List.length_cons]
    omega

/-- Python str.replace(old, new): with an empty pattern the replacement is
inserted before every character and once at the end; otherwise every
non-overlapping occurrence is replaced left to right. -/
def pyReplace (s pat rep : String) : String :=
  match pat.data with
  | [] => ⟨rep.data ++ (s.data.map (fun c => c :: rep.data)).flatten⟩
  | p :: ps => ⟨pyReplaceCore p ps rep.data s.data⟩

/-- Python substring test `pat in s`: the pattern occurs as a contiguous
stretch of s (always true for the empty pattern). -/
def pyContains (s pat : String) : Bool :=
  s.data.tails.any (fun t => pat.data.isPrefixOf t)

namespace DocDecorate

/-- Mapping passed to DocDecorate.replace: an association list in dict
iteration order, with the mapped values already stringified. -/
abbrev Mapping := List (String × String)

/-- Inner key loop of doc_decorate.DocDecorate.replace for one run: for
each key in mapping order, when the key occurs in the run's current text,
the key is substituted by the mapped value. -/
def replaceKeys (context : Mapping) (text : String) : String :=
  context.foldl
    (fun t kv => if pyContains t kv.1 then pyReplace t kv.1 kv.2 else t) text

/-- Embedding of doc_decorate.DocDecorate.replace over the cached run
list: the text of each cached run is rewritten in place by the key loop. -/
def replace (runs : List Run) (context : Mapping) : List Run :=
  match runs with
  | [] => []
  | r :: rest =>
      { r with text := replaceKeys context r.text } :: replace rest context

end DocDecorate

namespace DocDecorate

/-- Cached-run view of a DocDecorate facade: the document's run sequence in
document order, plus the cached self.runs list holding references
(positions) into that sequence. -/
structure RunsFacade where
  docRuns : List Run
  cached : List Nat
deriving Repr, DecidableEq

/-- Facade construction: self.runs = part.get_all_runs(doc) caches a
reference to every run of the document, in document order. -/
def RunsFacade.ofRuns (runs : List Run) : RunsFacade :=
  ⟨runs, List.range runs.length⟩

/-- Embedding of doc_decorate.DocDecorate.delete_run: the loop scans the
cached list and, at the first run whose text equals the argument, sets that
run's text to the empty string (the run object stays in the document),
removes the reference from the cached list and breaks; otherwise it is a
no-op. -/
def delete_run (st : RunsFacade) (text : String) : RunsFacade :=
  match st.cached.find? (fun i => (st.docRuns.getD i (mkRun "")).text == text) with
  | some i =>
      ⟨st.docRuns.set i { st.docRuns.getD i (mkRun "") with text := "" },
       st.cached.erase i⟩
  | none => st

end DocDecorate

namespace DocContent

/-- Update the cell at flat row-major position i of a grid through the
collaborator's cell text setter (the setter replaces the cell's whole
content, so the resulting cell does not depend on the old one). -/
def setFlatCell : List (List Cell) → Nat → String → List (List Cell)
  | [], _, _ => []
  | row :: rest, i, s =>
    if i < row.length then row.set i (cellOfText s) :: rest
    else row :: setFlatCell rest (i - row.length) s

/-- Embedding of content.DocContent.add_table: asserts positive dimensions
(the InvalidArgument condition) and enough data (the InsufficientData
condition), creates the rows-by-columns grid of fresh cells, writes data[i]
into cell i of the row-major cell list, appends the table at the end of
the document and returns it. -/
def add_table (doc : PyDoc) (rows columns : Int) (data : List String) :
    Except PyError (PyDoc × Table) :=
  if ¬ (0 < rows ∧ 0 < columns) then .error .invalidArgument
  else if (data.length : Int) < rows * columns then .error .insufficientData
  else
    let g :=
      (List.range (rows.toNat * columns.toNat)).foldl
        (fun g i => setFlatCell g i (data.getD i ""))
        (List.replicate rows.toNat (List.replicate columns.toNat emptyCell))
    .ok ({ doc with tables := doc.tables ++ [⟨g⟩] }, ⟨g⟩)

end DocContent

/-- Python str.split(sep) for a single-character separator: splits at every
occurrence, keeping empty parts. -/
def pySplit (sep : Char) : List Char → List (List Char)
  | [] => [[]]
  | c :: rest =>
    if c = sep then [] :: pySplit sep rest
    else
      match pySplit sep rest with
      | [] => [[c]]
      | h :: t => (c :: h) :: t

/-- The wordprocessingml namespace URI in Clark notation, as used by the
collaborator's qualified names. -/
def nsUri : String :=
  "\x7bhttp://schemas.openxmlformats.org/wordprocessingml/2006/main\x7d"

/-- Collaborator qn: splits a "w:tag" name on the colon and qualifies the
tag against the namespace map (only the w namespace is relevant here); any
other shape or namespace key fails. -/
def qn (tag : String) : Except PyError String :=
  match pySplit ':' tag.data with
  | [p, t] =>
      if p = ['w'] then .ok ⟨nsUri.data ++ t⟩
      else .error .keyError
  | _ => .error .valueError

/-- The qualified name produced by qn for the default en_font value
"w:eastAsia". -/
def eastAsiaQn : String :=
  "\x7bhttp://schemas.openxmlformats.org/wordprocessingml/2006/main\x7deastAsia"

/-- lxml attribute set on the rFonts element: replaces the value of an
existing attribute or appends a new one. -/
def rFontsSet (attrs : List (String × String)) (key val : String) :
    List (String × String) :=
  if attrs.any (fun kv => kv.1 == key) then
    attrs.map (fun kv => if kv.1 == key then (key, val) else kv)
  else attrs ++ [(key, val)]

/-- Attribute lookup on the rFonts element. -/
def rFontsGet (attrs : List (String × String)) (key : String) : Option String :=
  (attrs.find? (fun kv => kv.1 == key)).map (fun kv => kv.2)

/-- Hex digit value as accepted by Python int(_, 16). -/
def hexDigitVal (c : Char) : Option Nat :=
  if '0' ≤ c ∧ c ≤ '9' then some (c.toNat - '0'.toNat)
  else if 'a' ≤ c ∧ c ≤ 'f' then some (c.toNat - 'a'.toNat + 10)
  else if 'A' ≤ c ∧ c ≤ 'F' then some (c.toNat - 'A'.toNat + 10)
  else none

/-- Python int(_, 16) on a character list: fails on the empty string or on
a non-hex character. -/
def parseHexNat : List Char → Option Nat
  | [] => none
  | cs => cs.foldlM (fun n c => (hexDigitVal c).map (fun d => 16 * n + d)) 0

/-- Upper-case hex digit character for d < 16. -/
def hexDigitChar (d : Nat) : Char :=
  if d < 10 then Char.ofNat ('0'.toNat + d) else Char.ofNat ('A'.toNat + d - 10)

/-- Two-digit upper-case hex encoding of a byte. -/
def toHexPair (n : Nat) : List Char :=
  [hexDigitChar (n / 16), hexDigitChar (n % 16)]

/-- The 6-hex-digit string encoding of an (r,g,b) byte triple (the claim's
"corresponding string encoding" of a color tuple). -/
def rgbHexEncoding (r g b : Nat) : String :=
  ⟨toHexPair r ++ toHexPair g ++ toHexPair b⟩

/-- Collaborator RGBColor(r, g, b): takes three integer values 0-255 and
raises ValueError otherwise. -/
def RGBColor.make (r g b : Nat) : Except PyError RGBColor :=
  if r ≤ 255 ∧ g ≤ 255 ∧ b ≤ 255 then .ok ⟨r, g, b⟩ else .error .valueError

/-- Collaborator RGBColor.from_string: parses hex_string[:2], [2:4] and
[4:] with int(_, 16) (ValueError on a malformed string) and validates the
three values through the constructor. -/
def RGBColor.from_string (s : String) : Except PyError RGBColor :=
  match parseHexNat (s.data.take 2), parseHexNat ((s.data.drop 2).take 2),
      parseHexNat (s.data.drop 4) with
  | some r, some g, some b => RGBColor.make r g b
  | _, _, _ => .error .valueError

/-- Color argument accepted by the run setter: an (r,g,b) tuple or a hex
string. -/
inductive ColorArg where
  | rgb (r g b : Nat)
  | hexStr (s : String)

/-- Default value of the zh_font parameter of set_run_attribute. -/
def defaultZhFont : String := "微软雅黑"

namespace DocStyle

/-- First statement block of style.DocStyle.set_run_attribute: when en_font
or zh_font is not None, `run.font.name = zh_font` and then
`run._element.rPr.rFonts.set(qn(en_font), zh_font)`; qn(None) fails with an
AttributeError and setting an attribute value of None fails with a
TypeError.  On the error paths the exception propagates; the font-name
assignment that precedes it is then not observable through this embedding
(no claim examines the state after a failed call). -/
def applyFont (run : Run) (en_font zh_font : Option String) :
    Except PyError Run :=
  if en_font.isSome || zh_font.isSome then
    match en_font with
    | none => .error .attributeError
    | some e =>
      match qn e with
      | .error err => .error err
      | .ok q =>
        match zh_font with
        | none => .error .typeError
        | some zf =>
          .ok { run with fontName := zh_font,
                         rFonts := rFontsSet run.rFonts q zf }
  else .ok run

/-- Second statement block: `run.font.size = Pt(font_size)` when font_size
is not None (Pt converts points to EMU, 12700 per point). -/
def applySize (run : Run) (font_size : Option Nat) : Run :=
  match font_size with
  | none => run
  | some n => { run with size := some (12700 * n) }

/-- Third statement block: when color is not None, a tuple is passed to
RGBColor and anything else to RGBColor.from_string, and the result is
assigned to the run's color. -/
def applyColor (run : Run) (color : Option ColorArg) : Except PyError Run :=
  match color with
  | none => .ok run
  | some (.rgb r g b) =>
    match RGBColor.make r g b with
    | .error e => .error e
    | .ok cval => .ok { run with color := some cval }
  | some (.hexStr s) =>
    match RGBColor.from_string s with
    | .error e => .error e
    | .ok cval => .ok { run with color := some cval }

/-- Fourth statement block: `run.bold = bold` when bold is not None. -/
def applyBold (run : Run) (bold : Option Bool) : Run :=
  match bold with
  | none => run
  | some v => { run with bold := some v }

/-- Fifth statement block: `run.italic = italic` when italic is not None. -/
def applyItalic (run : Run) (italic : Option Bool) : Run :=
  match italic with
  | none => run
  | some v => { run with italic := some v }

/-- Embedding of style.DocStyle.set_run_attribute: the five statement
blocks in source order, each exception propagating to the caller. -/
def set_run_attribute (run : Run) (en_font zh_font : Option String)
    (font_size : Option Nat) (color : Option ColorArg)
    (bold italic : Option Bool) : Except PyError Run :=
  match applyFont run en_font zh_font with
  | .error e => .error e
  | .ok r1 =>
    match applyColor (applySize r1 font_size) color with
    | .error e => .error e
    | .ok r3 => .ok (applyItalic (applyBold r3 bold) italic)

/-- Call of set_run_attribute passing only a color, every other parameter
left at its Python default (en_font="w:eastAsia", zh_font=the default
font, font_size=None, bold=None, italic=None). -/
def set_run_color (run : Run) (color : ColorArg) : Except PyError Run :=
  set_run_attribute run (some "w:eastAsia") (some defaultZhFont) none
    (some color) none none

end DocStyle

/-- C10: part.get_row_in_table and part.get_column_in_table require
`0 < i < count` — the call with index 0 always fails with the OutOfRange
condition even when a first row and a first column exist — and for
`0 < i < count` they return the row (resp. column) of the table at index i. -/
theorem get_row_column_in_table_spec (t : Table) (i : Int) :
    (part.get_row_in_table t 0 = .error .outOfRange) ∧
    (part.get_column_in_table t 0 = .error .outOfRange) ∧
    (0 < i → i < (part.get_table_row_length t : Int) →
      ∃ r, t.grid[i.toNat]? = some r ∧ part.get_row_in_table t i = .ok r) ∧
    (0 < i → i < (part.get_table_column_length t : Int) →
      part.get_column_in_table t i = .ok (part.columnCells t i.toNat)) ∧
    (¬ (0 < i ∧ i < (part.get_table_row_length t : Int)) →
      part.get_row_in_table t i = .error .outOfRange) ∧
    (¬ (0 < i ∧ i < (part.get_table_column_length t : Int)) →
      part.get_column_in_table t i = .error .outOfRange) := by
  refine ⟨?_, ?_, ?_, ?_, ?_, ?_⟩
  · simp [part.get_row_in_table]
  · simp [part.get_column_in_table]
  · intro h1 h2
    simp only [part.get_table_row_length] at h2
    have hlt : i.toNat < t.grid.length := by omega
    refine ⟨t.grid[i.toNat], by simp, ?_⟩
    simp only [part.get_row_in_table, part.get_table_row_length]
    rw [if_pos ⟨h1, h2⟩, List.getD_eq_getElem _ _ hlt]
  · intro h1 h2
    simp [part.get_column_in_table, h1, h2]
  · intro h
    simp only [part.get_row_in_table, if_neg h]
  · intro h
    simp only [part.get_column_in_table, if_neg h]

/-- Witness for C10 on a concrete 2-by-2 table. -/
theorem get_row_column_in_table_spec_witness :
    part.get_row_in_table ⟨[[emptyCell, emptyCell], [emptyCell, emptyCell]]⟩ 0 =
      .error .outOfRange ∧
    part.get_row_in_table ⟨[[emptyCell, emptyCell], [emptyCell, emptyCell]]⟩ 1 =
      .ok [emptyCell, emptyCell] := by
  have h := get_row_column_in_table_spec ⟨[[emptyCell, emptyCell], [emptyCell, emptyCell]]⟩ 1
  refine ⟨h.1, ?_⟩
  obtain ⟨r, hr, hok⟩ := h.2.2.1 (by decide) (by decide)
  simpa [show r = [emptyCell, emptyCell] by simpa using hr.symm] using hok

/-- C8: fails on whole tables.  For a row, a column or a cell the
polymorphic run lookup returns exactly the element's runs, flattened in
(cell order, paragraph order, run order); but for a whole table the code
calls the list held by the `_cells` attribute as a function, so the lookup
raises a TypeError instead of returning the table's runs. -/
theorem get_runs_in_table_element_spec (t : Table) (cells : List Cell) (c : Cell) :
    (DOCXElement.get_runs_in_table_element (.row cells) =
      .ok (((cells.map Cell.paragraphs).flatten.map Paragraph.runs).flatten)) ∧
    (DOCXElement.get_runs_in_table_element (.column cells) =
      .ok (((cells.map Cell.paragraphs).flatten.map Paragraph.runs).flatten)) ∧
    (DOCXElement.get_runs_in_table_element (.cell c) =
      .ok ((c.paragraphs.map Paragraph.runs).flatten)) ∧
    (DOCXElement.get_runs_in_table_element (.table t) = .error .typeError) := by
  refine ⟨rfl, rfl, ?_, rfl⟩
  simp [DOCXElement.get_runs_in_table_element,
    DOCXElement.get_paragraphs_of_table_element,
    DOCXElement.get_cells_of_table_element, Except.bind]

/-- C1: fails; the code never fills an appended row.  On a table with 3
columns and data ["x","y","z","w"] the first loop iteration reassigns the
loop variable `row` to the appended row object and then evaluates
`row * column_length`, raising a TypeError, so the call errors out instead
of appending one row with cells ["x","y","z"]; when the data holds fewer
items than one row the loop body never runs and the table is returned
unchanged. -/
theorem append_rows_spec :
    DocContent.append_rows ⟨[[emptyCell, emptyCell, emptyCell]]⟩
      ["x", "y", "z", "w"] = .error .typeError ∧
    DocContent.append_rows ⟨[[emptyCell, emptyCell, emptyCell]]⟩
      ["x", "y"] = .ok ⟨[[emptyCell, emptyCell, emptyCell]]⟩ := by
  constructor <;> rfl

/-- C4: for an integer index in [0, N) the insertion yields N+1 paragraphs
with the new paragraph at index i, every earlier paragraph unchanged and
every paragraph from i on shifted one slot right, tables untouched, and the
new paragraph is returned; for an index outside [0, N) (in particular N)
the call fails with the OutOfRange condition before any mutation. -/
theorem insert_paragraph_before_spec (doc : PyDoc) (text : String) (i : Int) :
    (0 ≤ i → i < (doc.paragraphs.length : Int) →
      ∃ doc2 p, DocContent.insert_paragraph_before doc text i = .ok (doc2, p) ∧
        doc2.paragraphs.length = doc.paragraphs.length + 1 ∧
        doc2.paragraphs[i.toNat]? = some p ∧
        (∀ j : Nat, j < i.toNat → doc2.paragraphs[j]? = doc.paragraphs[j]?) ∧
        (∀ j : Nat, i.toNat ≤ j → doc2.paragraphs[j + 1]? = doc.paragraphs[j]?) ∧
        doc2.tables = doc.tables) ∧
    (¬ (0 ≤ i ∧ i < (doc.paragraphs.length : Int)) →
      DocContent.insert_paragraph_before doc text i = .error .outOfRange) := by
  constructor
  · intro h1 h2
    have hiN : i.toNat < doc.paragraphs.length := by omega
    have hle : i.toNat ≤ doc.paragraphs.length := Nat.le_of_lt hiN
    have hlen : (doc.paragraphs.insertIdx i.toNat (paragraphOfText text)).length =
        doc.paragraphs.length + 1 := List.length_insertIdx _ _ hle
    refine ⟨⟨doc.paragraphs.insertIdx i.toNat (paragraphOfText text), doc.tables⟩,
      paragraphOfText text, ?_, hlen, ?_, ?_, ?_, rfl⟩
    · simp only [DocContent.insert_paragraph_before, if_pos (And.intro h1 h2)]
    · show (doc.paragraphs.insertIdx i.toNat (paragraphOfText text))[i.toNat]? = _
      rw [List.getElem?_eq_getElem (by omega)]
      exact congrArg some (List.getElem_insertIdx_self _ _ _ hle)
    · intro j hj
      show (doc.paragraphs.insertIdx i.toNat (paragraphOfText text))[j]? = _
      have hjN : j < doc.paragraphs.length := lt_trans hj hiN
      rw [List.getElem?_eq_getElem (by omega), List.getElem?_eq_getElem hjN,
        List.getElem_insertIdx_of_lt _ _ _ _ hj hjN]
    · intro j hj
      show (doc.paragraphs.insertIdx i.toNat (paragraphOfText text))[j + 1]? = _
      by_cases hjN : j < doc.paragraphs.length
      · obtain ⟨k, hk⟩ := Nat.exists_eq_add_of_le hj
        rw [List.getElem?_eq_getElem (by omega), List.getElem?_eq_getElem hjN]
        subst hk
        exact congrArg some (List.getElem_insertIdx_add_succ _ _ _ _ (by omega))
      · rw [List.getElem?_eq_none (by omega), List.getElem?_eq_none (by omega)]
  · intro h
    simp only [DocContent.insert_paragraph_before, if_neg h]

/-- Witness for C4 on a document with two paragraphs, inserting at index 0
and failing at index 2. -/
theorem insert_paragraph_before_spec_witness :
    (∃ doc2 p,
      DocContent.insert_paragraph_before
        ⟨[paragraphOfText "a", paragraphOfText "b"], []⟩ "new" 0 = .ok (doc2, p) ∧
      doc2.paragraphs.length = 3 ∧
      doc2.paragraphs[0]? = some p ∧
      doc2.paragraphs[1]? = some (paragraphOfText "a")) ∧
    DocContent.insert_paragraph_before
      ⟨[paragraphOfText "a", paragraphOfText "b"], []⟩ "new" 2 =
        .error .outOfRange := by
  constructor
  · obtain ⟨doc2, p, hok, hlen, hat, _, hshift, _⟩ :=
      (insert_paragraph_before_spec
        ⟨[paragraphOfText "a", paragraphOfText "b"], []⟩ "new" 0).1
        (by decide) (by decide)
    exact ⟨doc2, p, hok, hlen, hat, by simpa using hshift 0 (by decide)⟩
  · exact (insert_paragraph_before_spec
      ⟨[paragraphOfText "a", paragraphOfText "b"], []⟩ "new" 2).2 (by decide)

/-- C9: fails for DocContent.  Constructing a DocContent facade from an
existing document d does not wrap d: the constructor tests
`isinstance(doc, DocContent)` instead of Document, so d falls to the else
branch, the facade's doc field refers to a freshly allocated empty
document, and a subsequent add_paragraph through the facade mutates the
fresh document while d stays untouched. -/
theorem doc_content_init_spec (openFile : String → PyDoc) (h : Heap) (r : Nat)
    (text : String) (hr : r < h.docs.length) :
    (DocContent.init openFile h (.document r)).2 = .docRef h.docs.length ∧
    (DocContent.init openFile h (.document r)).2 ≠ .docRef r ∧
    (DocContent.init openFile h (.document r)).1.docs.getD h.docs.length ⟨[], []⟩ =
      ⟨[], []⟩ ∧
    (DocContent.init openFile h (.document r)).1.docs.getD r ⟨[], []⟩ =
      h.docs.getD r ⟨[], []⟩ ∧
    (DocContent.add_paragraph (DocContent.init openFile h (.document r)).1
        h.docs.length text).docs.getD r ⟨[], []⟩ = h.docs.getD r ⟨[], []⟩ ∧
    ((DocContent.add_paragraph (DocContent.init openFile h (.document r)).1
        h.docs.length text).docs.getD h.docs.length ⟨[], []⟩).paragraphs =
      [paragraphOfText text] := by
  have hne : h.docs.length ≠ r := by omega
  refine ⟨rfl, by simpa [DocContent.init] using hne, ?_, ?_, ?_, ?_⟩
  · simp [DocContent.init, List.getElem?_concat_length]
  · simp [DocContent.init, List.getElem?_append_left hr]
  · simp only [DocContent.init, DocContent.add_paragraph, List.getD_eq_getElem?_getD]
    rw [List.getElem?_set_ne hne, List.getElem?_append_left hr]
  · simp only [DocContent.init, DocContent.add_paragraph, List.getD_eq_getElem?_getD]
    rw [List.getElem?_set_self (by simp)]
    simp [List.getElem?_concat_length]

/-- Witness for C9 on a one-document heap whose document has a paragraph. -/
theorem doc_content_init_spec_witness :
    (DocContent.init (fun _ => ⟨[], []⟩) ⟨[⟨[paragraphOfText "x"], []⟩]⟩
      (.document 0)).2 ≠ .docRef 0 ∧
    (DocContent.add_paragraph
      (DocContent.init (fun _ => ⟨[], []⟩) ⟨[⟨[paragraphOfText "x"], []⟩]⟩
        (.document 0)).1 1 "hello").docs.getD 0 ⟨[], []⟩ =
      ⟨[paragraphOfText "x"], []⟩ := by
  have h := doc_content_init_spec (fun _ => ⟨[], []⟩)
    ⟨[⟨[paragraphOfText "x"], []⟩]⟩ 0 "hello" (by decide)
  exact ⟨h.2.1, h.2.2.2.2.1⟩

/-- C3: DocDecorate.replace rewrites each cached run independently by
applying, for each mapping key in iteration order that is a substring of
the run's current text, the substitution of that key by the mapped value;
a run whose text contains no key is left unchanged, and with the mapping
foo ↦ bar a run with text "foobar123" ends with text "barbar123". -/
theorem replace_spec (runs : List Run) (context : DocDecorate.Mapping) :
    (DocDecorate.replace runs context =
      runs.map (fun r => { r with text := DocDecorate.replaceKeys context r.text })) ∧
    (∀ r ∈ runs, (∀ kv ∈ context, pyContains r.text kv.1 = false) →
      DocDecorate.replaceKeys context r.text = r.text) ∧
    DocDecorate.replaceKeys [("foo", "bar")] "foobar123" = "barbar123" := by
  refine ⟨?_, ?_, ?_⟩
  · induction runs with
    | nil => rfl
    | cons r rest ih => simp [DocDecorate.replace, ih]
  · intro r _
    induction context with
    | nil => intro _; rfl
    | cons kv rest ih =>
      intro hr
      have h1 : pyContains r.text kv.1 = false := hr kv (by simp)
      show DocDecorate.replaceKeys (kv :: rest) r.text = r.text
      simp only [DocDecorate.replaceKeys, List.foldl_cons, h1, Bool.false_eq_true,
        if_false]
      exact ih (fun kv2 hkv2 => hr kv2 (List.mem_cons_of_mem _ hkv2))
  · simp only [DocDecorate.replaceKeys, List.foldl_cons, List.foldl_nil]
    rw [show pyContains "foobar123" "foo" = true from by decide]
    simp only [if_true]
    simp +decide [pyReplace, pyReplaceCore]

/-- Witness for C3: a run whose text contains no mapping key keeps its
text, applied at a concrete run and mapping through the theorem. -/
theorem replace_spec_witness :
    DocDecorate.replaceKeys [("zz", "y")] "abc" = "abc" ∧
    DocDecorate.replaceKeys [("foo", "bar")] "foobar123" = "barbar123" := by
  have h := replace_spec [mkRun "abc"] [("zz", "y")]
  have h2 := replace_spec [] [("foo", "bar")]
  exact ⟨h.2.1 (mkRun "abc") (by simp) (by decide), h2.2.2⟩

/-- Counterexample to C5 as stated: on a document whose runs are
["marker", "x"], delete_run "marker" leaves two runs in the document (the
first one with empty text) instead of removing the marker run from the
document. -/
theorem delete_run_counterexample :
    ((DocDecorate.delete_run
        (DocDecorate.RunsFacade.ofRuns [mkRun "marker", mkRun "x"])
        "marker").docRuns.map Run.text = ["", "x"]) ∧
    ((DocDecorate.delete_run
        (DocDecorate.RunsFacade.ofRuns [mkRun "marker", mkRun "x"])
        "marker").docRuns.length = 2) ∧
    ¬ ((DocDecorate.delete_run
        (DocDecorate.RunsFacade.ofRuns [mkRun "marker", mkRun "x"])
        "marker").docRuns.map Run.text = ["x"]) := by
  refine ⟨?_, ?_, ?_⟩ <;> decide

/-- Helper: find? over an index range returns the first index satisfying
the predicate. -/
theorem find_first_range (p : Nat → Bool) {n j : Nat} (hj : j < n)
    (hp : p j = true) (hmin : ∀ k, k < j → p k = false) :
    (List.range n).find? p = some j := by
  induction n with
  | zero => omega
  | succ n ih =>
    rw [List.range_succ, List.find?_append]
    by_cases hjc : j < n
    · rw [ih hjc]
      rfl
    · have hje : j = n := by omega
      subst hje
      have hnone : (List.range j).find? p = none := by
        rw [List.find?_eq_none]
        intro x hx
        simp only [List.mem_range] at hx
        simp [hmin x hx]
      rw [hnone, Option.none_or, List.find?_cons_of_pos _ hp]

/-- C5 (amended): delete_run clears the text of the first run whose text
equals the argument — the run object itself stays in the document — and
removes that run from the cached run list, leaving every other run
unchanged; when no run's text equals the argument the call is a no-op, so
a second identical call after deleting a unique marker changes nothing. -/
theorem delete_run_spec (runs : List Run) (text : String) (j : Nat) :
    (j < runs.length → (runs.getD j (mkRun "")).text = text →
      (∀ k, k < j → (runs.getD k (mkRun "")).text ≠ text) →
      DocDecorate.delete_run (DocDecorate.RunsFacade.ofRuns runs) text =
        ⟨runs.set j { runs.getD j (mkRun "") with text := "" },
         (List.range runs.length).erase j⟩) ∧
    ((∀ r ∈ runs, r.text ≠ text) →
      DocDecorate.delete_run (DocDecorate.RunsFacade.ofRuns runs) text =
        DocDecorate.RunsFacade.ofRuns runs) ∧
    (DocDecorate.delete_run
        (DocDecorate.delete_run
          (DocDecorate.RunsFacade.ofRuns [mkRun "a", mkRun "marker"]) "marker")
        "marker" =
      DocDecorate.delete_run
        (DocDecorate.RunsFacade.ofRuns [mkRun "a", mkRun "marker"]) "marker") := by
  refine ⟨?_, ?_, by decide⟩
  · intro hj hpj hmin
    have hfind : (List.range runs.length).find?
        (fun i => (runs.getD i (mkRun "")).text == text) = some j :=
      find_first_range _ hj (by simp only [beq_iff_eq]; exact hpj)
        (fun k hk => by simp only [beq_eq_false_iff_ne, ne_eq]; exact hmin k hk)
    simp only [DocDecorate.delete_run, DocDecorate.RunsFacade.ofRuns, hfind]
  · intro hnone
    have hfind : (List.range runs.length).find?
        (fun i => (runs.getD i (mkRun "")).text == text) = none := by
      rw [List.find?_eq_none]
      intro x hx
      simp only [List.mem_range] at hx
      have := hnone (runs.getD x (mkRun ""))
        (by rw [List.getD_eq_getElem _ _ hx]; exact List.getElem_mem hx)
      simpa using this
    simp only [DocDecorate.delete_run, DocDecorate.RunsFacade.ofRuns, hfind]

/-- Witness for C5 on a concrete document with runs ["a", "marker", "b"]. -/
theorem delete_run_spec_witness :
    DocDecorate.delete_run
      (DocDecorate.RunsFacade.ofRuns [mkRun "a", mkRun "marker", mkRun "b"])
      "marker" =
      ⟨[mkRun "a", { mkRun "marker" with text := "" }, mkRun "b"], [0, 2]⟩ ∧
    DocDecorate.delete_run
      (DocDecorate.RunsFacade.ofRuns [mkRun "a", mkRun "b"]) "marker" =
      DocDecorate.RunsFacade.ofRuns [mkRun "a", mkRun "b"] := by
  constructor
  · have h := (delete_run_spec [mkRun "a", mkRun "marker", mkRun "b"] "marker" 1).1
      (by decide) (by decide) (by decide)
    rw [h]
    decide
  · exact (delete_run_spec [mkRun "a", mkRun "b"] "marker" 0).2.1 (by decide)

/-- Helper: setting a flat cell commutes with flattening the grid. -/
theorem flatten_setFlatCell (g : List (List Cell)) (i : Nat) (s : String) :
    (DocContent.setFlatCell g i s).flatten = g.flatten.set i (cellOfText s) := by
  induction g generalizing i with
  | nil => rfl
  | cons row rest ih =>
    simp only [DocContent.setFlatCell]
    by_cases h : i < row.length
    · rw [if_pos h]
      simp only [List.flatten_cons]
      rw [List.set_append_left _ _ h]
    · rw [if_neg h]
      simp only [List.flatten_cons]
      rw [List.set_append_right _ _ (by omega), ih]

/-- Helper: setting a flat cell preserves the shape of the grid. -/
theorem setFlatCell_map_length (g : List (List Cell)) (i : Nat) (s : String) :
    (DocContent.setFlatCell g i s).map List.length = g.map List.length := by
  induction g generalizing i with
  | nil => rfl
  | cons row rest ih =>
    simp only [DocContent.setFlatCell]
    by_cases h : i < row.length
    · rw [if_pos h]
      simp
    · rw [if_neg h]
      simp [ih]

/-- Helper: the cell-fill loop commutes with flattening the grid. -/
theorem flatten_foldl_setFlatCell (l : List Nat) (σ : Nat → String)
    (g : List (List Cell)) :
    (l.foldl (fun g i => DocContent.setFlatCell g i (σ i)) g).flatten =
      l.foldl (fun acc i => acc.set i (cellOfText (σ i))) g.flatten := by
  induction l generalizing g with
  | nil => rfl
  | cons x xs ih =>
    simp only [List.foldl_cons]
    rw [ih, flatten_setFlatCell]

/-- Helper: the cell-fill loop preserves the shape of the grid. -/
theorem foldl_setFlatCell_map_length (l : List Nat) (σ : Nat → String)
    (g : List (List Cell)) :
    (l.foldl (fun g i => DocContent.setFlatCell g i (σ i)) g).map List.length =
      g.map List.length := by
  induction l generalizing g with
  | nil => rfl
  | cons x xs ih =>
    simp only [List.foldl_cons]
    rw [ih, setFlatCell_map_length]

/-- Helper: folding set over an index range overwrites the first n slots. -/
theorem foldl_set_range (n : Nat) (f : Nat → Cell) (l : List Cell)
    (h : n ≤ l.length) :
    (List.range n).foldl (fun acc i => acc.set i (f i)) l =
      (List.range n).map f ++ l.drop n := by
  induction n with
  | zero => simp
  | succ m ih =>
    rw [List.range_succ, List.foldl_append, List.map_append, ih (by omega)]
    simp only [List.foldl_cons, List.foldl_nil]
    rw [List.set_append_right _ _ (by simp)]
    simp only [List.length_map, List.length_range, Nat.sub_self]
    rw [List.drop_eq_getElem_cons (show m < l.length by omega),
      List.set_cons_zero]
    simp

/-- Helper: reading back the text written by the cell text setter. -/
theorem cellText_cellOfText (s : String) : cellText (cellOfText s) = s := rfl

/-- Helper: the first n positions of a list, read through getD. -/
theorem map_range_getD (data : List String) (n : Nat) (h : n ≤ data.length) :
    (List.range n).map (fun i => data.getD i "") = data.take n := by
  apply List.ext_getElem?
  intro i
  by_cases hi : i < n
  · rw [List.getElem?_map, List.getElem?_range hi, List.getElem?_take_of_lt hi,
      List.getElem?_eq_getElem (show i < data.length by omega)]
    show some (data.getD i "") = some (data[i])
    rw [List.getD_eq_getElem _ _ (by omega)]
  · rw [List.getElem?_eq_none (by simpa using hi),
      List.getElem?_eq_none (by simp; omega)]

/-- C2: add_table fails with the InvalidArgument condition when rows <= 0 or
columns <= 0, fails with the InsufficientData condition when the data holds
fewer items than rows*columns, and otherwise appends to the document a
rows-by-columns table whose i-th cell (row-major) has text data[i] for
every i < rows*columns, and returns that table. -/
theorem add_table_spec (doc : PyDoc) (rows columns : Int) (data : List String) :
    ((rows ≤ 0 ∨ columns ≤ 0) →
      DocContent.add_table doc rows columns data = .error .invalidArgument) ∧
    (0 < rows → 0 < columns → (data.length : Int) < rows * columns →
      DocContent.add_table doc rows columns data = .error .insufficientData) ∧
    (0 < rows → 0 < columns → rows * columns ≤ (data.length : Int) →
      ∃ t, DocContent.add_table doc rows columns data =
          .ok ({ doc with tables := doc.tables ++ [t] }, t) ∧
        t.grid.length = rows.toNat ∧
        (∀ row ∈ t.grid, row.length = columns.toNat) ∧
        (DOCXElement.get_cells_of_table t).map cellText =
          data.take (rows.toNat * columns.toNat)) := by
  refine ⟨?_, ?_, ?_⟩
  · intro h
    rw [DocContent.add_table, if_pos (by omega)]
  · intro h1 h2 h3
    rw [DocContent.add_table, if_neg (by omega), if_pos h3]
  · intro h1 h2 h3
    have hle : rows.toNat * columns.toNat ≤ data.length := by
      have : (rows.toNat : Int) * (columns.toNat : Int) ≤ (data.length : Int) := by
        rw [Int.toNat_of_nonneg (by omega), Int.toNat_of_nonneg (by omega)]
        exact h3
      exact_mod_cast this
    refine ⟨⟨(List.range (rows.toNat * columns.toNat)).foldl
        (fun g i => DocContent.setFlatCell g i (data.getD i ""))
        (List.replicate rows.toNat (List.replicate columns.toNat emptyCell))⟩,
      ?_, ?_, ?_, ?_⟩
    · rw [DocContent.add_table, if_neg (by omega), if_neg (by omega)]
    · have hml := foldl_setFlatCell_map_length
        (List.range (rows.toNat * columns.toNat)) (fun i => data.getD i "")
        (List.replicate rows.toNat (List.replicate columns.toNat emptyCell))
      have := congrArg List.length hml
      simpa using this
    · intro row hrow
      have hml := foldl_setFlatCell_map_length
        (List.range (rows.toNat * columns.toNat)) (fun i => data.getD i "")
        (List.replicate rows.toNat (List.replicate columns.toNat emptyCell))
      have hmem : row.length ∈
          (List.replicate rows.toNat (List.replicate columns.toNat emptyCell)).map
            List.length := by
        rw [← hml]
        exact List.mem_map_of_mem _ hrow
      simp only [List.map_replicate, List.length_replicate] at hmem
      exact List.eq_of_mem_replicate hmem
    · show ((⟨_⟩ : Table).grid.flatten).map cellText = _
      rw [flatten_foldl_setFlatCell, List.flatten_replicate_replicate,
        foldl_set_range _ _ _ (by simp),
        List.drop_of_length_le (by simp), List.append_nil, List.map_map]
      rw [show (cellText ∘ fun i => cellOfText (data.getD i "")) =
          (fun i => data.getD i "") from funext (fun i => cellText_cellOfText _)]
      exact map_range_getD data _ hle

/-- Witness for C2: build_table(2, 3, ["a","b","c","d","e","f"]) yields
cell texts exactly that list, rows=0 fails with InvalidArgument, and data
of length 5 fails with InsufficientData. -/
theorem add_table_spec_witness :
    (∃ t, DocContent.add_table ⟨[], []⟩ 2 3 ["a", "b", "c", "d", "e", "f"] =
        .ok ({ paragraphs := [], tables := [] ++ [t] }, t) ∧
      (DOCXElement.get_cells_of_table t).map cellText =
        ["a", "b", "c", "d", "e", "f"]) ∧
    DocContent.add_table ⟨[], []⟩ 0 3 ["a", "b", "c", "d", "e", "f"] =
      .error .invalidArgument ∧
    DocContent.add_table ⟨[], []⟩ 2 3 ["a", "b", "c", "d", "e"] =
      .error .insufficientData := by
  refine ⟨?_, ?_, ?_⟩
  · obtain ⟨t, hok, _, _, htexts⟩ :=
      (add_table_spec ⟨[], []⟩ 2 3 ["a", "b", "c", "d", "e", "f"]).2.2
        (by decide) (by decide) (by decide)
    exact ⟨t, hok, by simpa using htexts⟩
  · exact (add_table_spec ⟨[], []⟩ 0 3 ["a", "b", "c", "d", "e", "f"]).1
      (Or.inl (by decide))
  · exact (add_table_spec ⟨[], []⟩ 2 3 ["a", "b", "c", "d", "e"]).2.1
      (by decide) (by decide) (by decide)

/-- Helper: qn on the default en_font value. -/
theorem qn_eastAsia : qn "w:eastAsia" = .ok eastAsiaQn := rfl

/-- Helper: in a list that has an entry with the given key, rewriting that
entry makes find? return the new pair. -/
theorem find_map_set (k v : String) :
    ∀ attrs : List (String × String),
      attrs.any (fun kv => kv.1 == k) = true →
      (attrs.map (fun kv => if kv.1 == k then (k, v) else kv)).find?
        (fun kv => kv.1 == k) = some (k, v)
  | [], h => by simp at h
  | kv :: rest, h => by
    by_cases hk : (kv.1 == k) = true
    · simp only [List.map_cons, if_pos hk]
      exact List.find?_cons_of_pos _ (by simp)
    · have hkf : (kv.1 == k) = false := by simpa using hk
      simp only [List.map_cons, if_neg hk]
      rw [List.find?_cons_of_neg _ (by simp [hkf])]
      apply find_map_set k v rest
      simpa [List.any_cons, hkf] using h

/-- Helper: reading back the attribute written by the rFonts set. -/
theorem rFontsGet_rFontsSet (attrs : List (String × String)) (k v : String) :
    rFontsGet (rFontsSet attrs k v) k = some v := by
  unfold rFontsSet rFontsGet
  by_cases h : attrs.any (fun kv => kv.1 == k) = true
  · rw [if_pos h, find_map_set k v attrs h]
    rfl
  · rw [if_neg h]
    have hnone : attrs.find? (fun kv => kv.1 == k) = none := by
      rw [List.find?_eq_none]
      intro kv hkv hc
      exact h (List.any_eq_true.mpr ⟨kv, hkv, hc⟩)
    rw [List.find?_append, hnone, Option.none_or,
      List.find?_cons_of_pos _ (by simp)]
    rfl

/-- Helper: the run returned by the font block keeps every non-font
attribute of its argument. -/
theorem applyFont_pres {run : Run} {e z : Option String} {r2 : Run}
    (h : DocStyle.applyFont run e z = .ok r2) :
    r2.text = run.text ∧ r2.size = run.size ∧ r2.color = run.color ∧
      r2.bold = run.bold ∧ r2.italic = run.italic := by
  cases e with
  | none =>
    cases z with
    | none =>
      simp only [DocStyle.applyFont] at h
      simp only [Option.isSome_none, Bool.or_self, Bool.false_eq_true,
        if_false, Except.ok.injEq] at h
      subst h
      exact ⟨rfl, rfl, rfl, rfl, rfl⟩
    | some zf => simp [DocStyle.applyFont] at h
  | some ev =>
    cases hq : qn ev with
    | error err => simp [DocStyle.applyFont, hq] at h
    | ok q =>
      cases z with
      | none => simp [DocStyle.applyFont, hq] at h
      | some zf =>
        simp only [DocStyle.applyFont, Option.isSome_some, Bool.true_or,
          if_true, hq, Except.ok.injEq] at h
        subst h
        exact ⟨rfl, rfl, rfl, rfl, rfl⟩

/-- Helper: with both font parameters None the font block is a no-op. -/
theorem applyFont_none_none (run : Run) :
    DocStyle.applyFont run none none = .ok run := rfl

/-- Helper: with the default en_font and a given zh_font, the font block
sets the font name and the east-Asian rFonts override together to the
zh_font value. -/
theorem applyFont_sets {run : Run} {z : String} {r2 : Run}
    (h : DocStyle.applyFont run (some "w:eastAsia") (some z) = .ok r2) :
    r2.fontName = some z ∧ rFontsGet r2.rFonts eastAsiaQn = some z := by
  simp only [DocStyle.applyFont, Option.isSome_some, Bool.true_or, if_true,
    qn_eastAsia, Except.ok.injEq] at h
  subst h
  exact ⟨rfl, rFontsGet_rFontsSet _ _ _⟩

/-- Helper: the size block only touches the size attribute. -/
theorem applySize_pres (run : Run) (fs : Option Nat) :
    (DocStyle.applySize run fs).text = run.text ∧
    (DocStyle.applySize run fs).fontName = run.fontName ∧
    (DocStyle.applySize run fs).rFonts = run.rFonts ∧
    (DocStyle.applySize run fs).color = run.color ∧
    (DocStyle.applySize run fs).bold = run.bold ∧
    (DocStyle.applySize run fs).italic = run.italic := by
  cases fs <;> exact ⟨rfl, rfl, rfl, rfl, rfl, rfl⟩

/-- Helper: the color block only touches the color attribute. -/
theorem applyColor_pres {run : Run} {c : Option ColorArg} {r2 : Run}
    (h : DocStyle.applyColor run c = .ok r2) :
    r2.text = run.text ∧ r2.fontName = run.fontName ∧
      r2.rFonts = run.rFonts ∧ r2.size = run.size ∧ r2.bold = run.bold ∧
      r2.italic = run.italic := by
  cases c with
  | none =>
    simp only [DocStyle.applyColor, Except.ok.injEq] at h
    subst h
    exact ⟨rfl, rfl, rfl, rfl, rfl, rfl⟩
  | some ca =>
    cases ca with
    | rgb r g b =>
      cases hm : RGBColor.make r g b with
      | error err => simp [DocStyle.applyColor, hm] at h
      | ok cval =>
        simp only [DocStyle.applyColor, hm, Except.ok.injEq] at h
        subst h
        exact ⟨rfl, rfl, rfl, rfl, rfl, rfl⟩
    | hexStr s =>
      cases hm : RGBColor.from_string s with
      | error err => simp [DocStyle.applyColor, hm] at h
      | ok cval =>
        simp only [DocStyle.applyColor, hm, Except.ok.injEq] at h
        subst h
        exact ⟨rfl, rfl, rfl, rfl, rfl, rfl⟩

/-- Helper: the bold block only touches the bold attribute. -/
theorem applyBold_pres (run : Run) (b : Option Bool) :
    (DocStyle.applyBold run b).text = run.text ∧
    (DocStyle.applyBold run b).fontName = run.fontName ∧
    (DocStyle.applyBold run b).rFonts = run.rFonts ∧
    (DocStyle.applyBold run b).size = run.size ∧
    (DocStyle.applyBold run b).color = run.color ∧
    (DocStyle.applyBold run b).italic = run.italic := by
  cases b <;> exact ⟨rfl, rfl, rfl, rfl, rfl, rfl⟩

/-- Helper: the italic block only touches the italic attribute. -/
theorem applyItalic_pres (run : Run) (i : Option Bool) :
    (DocStyle.applyItalic run i).text = run.text ∧
    (DocStyle.applyItalic run i).fontName = run.fontName ∧
    (DocStyle.applyItalic run i).rFonts = run.rFonts ∧
    (DocStyle.applyItalic run i).size = run.size ∧
    (DocStyle.applyItalic run i).color = run.color ∧
    (DocStyle.applyItalic run i).bold = run.bold := by
  cases i <;> exact ⟨rfl, rfl, rfl, rfl, rfl, rfl⟩

/-- Helper: a successful run of the whole setter decomposes into its three
effectful stages. -/
theorem set_run_attribute_destruct {run : Run} {e z : Option String}
    {fs : Option Nat} {c : Option ColorArg} {b i : Option Bool} {r2 : Run}
    (h : DocStyle.set_run_attribute run e z fs c b i = .ok r2) :
    ∃ r1 r3, DocStyle.applyFont run e z = .ok r1 ∧
      DocStyle.applyColor (DocStyle.applySize r1 fs) c = .ok r3 ∧
      r2 = DocStyle.applyItalic (DocStyle.applyBold r3 b) i := by
  cases hF : DocStyle.applyFont run e z with
  | error err => simp [DocStyle.set_run_attribute, hF] at h
  | ok r1 =>
    simp only [DocStyle.set_run_attribute, hF] at h
    cases hC : DocStyle.applyColor (DocStyle.applySize r1 fs) c with
    | error err => simp [hC] at h
    | ok r3 =>
      simp only [hC, Except.ok.injEq] at h
      exact ⟨r1, r3, rfl, hC, h.symm⟩

/-- Counterexample to C6 as stated: a call passing only a color (all other
parameters at their Python defaults) does not leave the font name
untouched: on a run whose font is "Arial" it resets the font name to the
default font. -/
theorem set_run_attribute_counterexample :
    (DocStyle.set_run_color { text := "t", fontName := some "Arial" }
        (ColorArg.rgb 255 0 0)).map Run.fontName = .ok (some defaultZhFont) ∧
    some defaultZhFont ≠ some "Arial" := by
  exact ⟨by decide, by decide⟩

/-- C6 (amended): a None font_size/color/bold/italic parameter leaves the
corresponding attribute untouched, and the font name and east-Asian
override are untouched when both font parameters are None; but the font
parameters default to "w:eastAsia" and the default font rather than None,
so a call passing only a color also resets the run's font; whenever a font
is given, the font name and the east-Asian override are set together as a
pair to that font. -/
theorem set_run_attribute_spec (run : Run) (z : String) (fs : Option Nat)
    (c : Option ColorArg) (b i : Option Bool) :
    (∀ r2, DocStyle.set_run_attribute run none none fs c b i = .ok r2 →
      r2.fontName = run.fontName ∧ r2.rFonts = run.rFonts) ∧
    (DocStyle.set_run_attribute run none none none none none none = .ok run) ∧
    (∀ r2, DocStyle.set_run_attribute run (some "w:eastAsia") (some z) none
        none none none = .ok r2 →
      r2.text = run.text ∧ r2.size = run.size ∧ r2.color = run.color ∧
        r2.bold = run.bold ∧ r2.italic = run.italic) ∧
    (∀ r2, DocStyle.set_run_attribute run (some "w:eastAsia") (some z) fs c b i
        = .ok r2 →
      r2.fontName = some z ∧ rFontsGet r2.rFonts eastAsiaQn = some z) ∧
    (∀ r2 ca, DocStyle.set_run_color run ca = .ok r2 →
      r2.fontName = some defaultZhFont ∧
      rFontsGet r2.rFonts eastAsiaQn = some defaultZhFont ∧
      r2.size = run.size ∧ r2.bold = run.bold ∧ r2.italic = run.italic) := by
  refine ⟨?_, rfl, ?_, ?_, ?_⟩
  · intro r2 h
    obtain ⟨r1, r3, hF, hC, hr2⟩ := set_run_attribute_destruct h
    rw [applyFont_none_none] at hF
    simp only [Except.ok.injEq] at hF
    subst hF
    obtain ⟨-, hCn, hCr, -, -, -⟩ := applyColor_pres hC
    obtain ⟨-, hSn, hSr, -, -, -⟩ := applySize_pres run fs
    subst hr2
    obtain ⟨-, hBn, hBr, -, -, -⟩ := applyBold_pres r3 b
    obtain ⟨-, hIn, hIr, -, -, -⟩ := applyItalic_pres (DocStyle.applyBold r3 b) i
    constructor
    · rw [hIn, hBn, hCn, hSn]
    · rw [hIr, hBr, hCr, hSr]
  · intro r2 h
    obtain ⟨r1, r3, hF, hC, hr2⟩ := set_run_attribute_destruct h
    obtain ⟨hFt, hFs, hFc, hFb, hFi⟩ := applyFont_pres hF
    have hSz : DocStyle.applySize r1 none = r1 := rfl
    rw [hSz] at hC
    have hCo : DocStyle.applyColor r1 none = .ok r1 := rfl
    rw [hCo] at hC
    simp only [Except.ok.injEq] at hC
    subst hC
    subst hr2
    exact ⟨hFt, hFs, hFc, hFb, hFi⟩
  · intro r2 h
    obtain ⟨r1, r3, hF, hC, hr2⟩ := set_run_attribute_destruct h
    obtain ⟨hFn, hFr⟩ := applyFont_sets hF
    obtain ⟨-, hCn, hCr, -, -, -⟩ := applyColor_pres hC
    obtain ⟨-, hSn, hSr, -, -, -⟩ := applySize_pres r1 fs
    subst hr2
    obtain ⟨-, hBn, hBr, -, -, -⟩ := applyBold_pres r3 b
    obtain ⟨-, hIn, hIr, -, -, -⟩ := applyItalic_pres (DocStyle.applyBold r3 b) i
    constructor
    · rw [hIn, hBn, hCn, hSn, hFn]
    · rw [hIr, hBr, hCr, hSr, hFr]
  · intro r2 ca h
    unfold DocStyle.set_run_color at h
    obtain ⟨r1, r3, hF, hC, hr2⟩ := set_run_attribute_destruct h
    obtain ⟨hFn, hFr⟩ := applyFont_sets hF
    obtain ⟨-, hFsz, -, hFb, hFi⟩ := applyFont_pres hF
    obtain ⟨-, hCn, hCr, hCsz, hCb, hCi⟩ := applyColor_pres hC
    have hSz : DocStyle.applySize r1 none = r1 := rfl
    rw [hSz] at hC hCn hCr hCsz hCb hCi
    subst hr2
    exact ⟨by rw [hCn, hFn], by rw [hCr, hFr], by rw [hCsz, hFsz],
      by rw [hCb, hFb], by rw [hCi, hFi]⟩

/-- Witness for C6: the all-None call on a concrete run, the pair-setting
of the default font, and the untouched bold on a color-only call. -/
theorem set_run_attribute_spec_witness :
    DocStyle.set_run_attribute (mkRun "t") none none none none none none =
      .ok (mkRun "t") ∧
    (∀ r2, DocStyle.set_run_attribute (mkRun "t") (some "w:eastAsia")
        (some "SimSun") none none none none = .ok r2 →
      r2.fontName = some "SimSun" ∧
        rFontsGet r2.rFonts eastAsiaQn = some "SimSun") ∧
    (∀ r2, DocStyle.set_run_color (mkRun "t") (ColorArg.rgb 255 0 0) = .ok r2 →
      r2.bold = none) := by
  have h := set_run_attribute_spec (mkRun "t") "SimSun" none none none none
  refine ⟨h.2.1, fun r2 hk => (h.2.2.2.1 r2 hk), fun r2 hk => ?_⟩
  have := (h.2.2.2.2 r2 (ColorArg.rgb 255 0 0) hk).2.2.2.1
  simpa using this

/-- Helper: hexDigitVal inverts hexDigitChar below 16. -/
theorem hexDigitVal_hexDigitChar : ∀ d, d < 16 →
    hexDigitVal (hexDigitChar d) = some d := by decide

/-- Helper: parsing a two-hex-digit character pair. -/
theorem parseHexNat_pair (c1 c2 : Char) (d1 d2 : Nat)
    (h1 : hexDigitVal c1 = some d1) (h2 : hexDigitVal c2 = some d2) :
    parseHexNat [c1, c2] = some (16 * d1 + d2) := by
  unfold parseHexNat
  simp [List.foldlM, h1, h2]

/-- Helper: parseHexNat inverts the two-digit hex encoding of a byte. -/
theorem parseHexNat_toHexPair (n : Nat) (h : n ≤ 255) :
    parseHexNat (toHexPair n) = some n := by
  rw [show toHexPair n = [hexDigitChar (n / 16), hexDigitChar (n % 16)] from
      rfl,
    parseHexNat_pair _ _ _ _
      (hexDigitVal_hexDigitChar (n / 16) (by omega))
      (hexDigitVal_hexDigitChar (n % 16) (Nat.mod_lt _ (by omega)))]
  simp only [Option.some.injEq]
  omega

/-- Helper: from_string inverts the 6-hex-digit encoding of a byte
triple. -/
theorem from_string_encoding (r g b : Nat) (hr : r ≤ 255) (hg : g ≤ 255)
    (hb : b ≤ 255) :
    RGBColor.from_string (rgbHexEncoding r g b) = .ok ⟨r, g, b⟩ := by
  have h1 : parseHexNat ((rgbHexEncoding r g b).data.take 2) =
      parseHexNat (toHexPair r) := rfl
  have h2 : parseHexNat (((rgbHexEncoding r g b).data.drop 2).take 2) =
      parseHexNat (toHexPair g) := rfl
  have h3 : parseHexNat ((rgbHexEncoding r g b).data.drop 4) =
      parseHexNat (toHexPair b) := rfl
  unfold RGBColor.from_string
  rw [h1, h2, h3, parseHexNat_toHexPair r hr, parseHexNat_toHexPair g hg,
    parseHexNat_toHexPair b hb]
  show RGBColor.make r g b = .ok ⟨r, g, b⟩
  unfold RGBColor.make
  rw [if_pos ⟨hr, hg, hb⟩]

/-- C7: for r, g, b in 0..255, setting a run's color with the (r,g,b)
tuple and with the corresponding 6-hex-digit string encoding produce the
same run state, and reading the color back yields RGB (r,g,b). -/
theorem color_round_trip (run : Run) (r g b : Nat) (hr : r ≤ 255)
    (hg : g ≤ 255) (hb : b ≤ 255) :
    DocStyle.set_run_color run (ColorArg.rgb r g b) =
      DocStyle.set_run_color run (ColorArg.hexStr (rgbHexEncoding r g b)) ∧
    ∀ r2, DocStyle.set_run_color run (ColorArg.rgb r g b) = .ok r2 →
      r2.color = some ⟨r, g, b⟩ := by
  have hmk : RGBColor.make r g b = .ok ⟨r, g, b⟩ := by
    unfold RGBColor.make
    rw [if_pos ⟨hr, hg, hb⟩]
  have hAC : ∀ run1 : Run, DocStyle.applyColor run1 (some (.rgb r g b)) =
      .ok { run1 with color := some ⟨r, g, b⟩ } := by
    intro run1
    simp only [DocStyle.applyColor, hmk]
  have hAC2 : ∀ run1 : Run,
      DocStyle.applyColor run1 (some (.hexStr (rgbHexEncoding r g b))) =
        .ok { run1 with color := some ⟨r, g, b⟩ } := by
    intro run1
    simp only [DocStyle.applyColor, from_string_encoding r g b hr hg hb]
  constructor
  · unfold DocStyle.set_run_color DocStyle.set_run_attribute
    cases hF : DocStyle.applyFont run (some "w:eastAsia") (some defaultZhFont)
      with
    | error err => rfl
    | ok r1 =>
      dsimp only
      rw [hAC, hAC2]
  · intro r2 h
    unfold DocStyle.set_run_color at h
    obtain ⟨r1, r3, hF, hC, hr2⟩ := set_run_attribute_destruct h
    rw [hAC] at hC
    simp only [Except.ok.injEq] at hC
    subst hC
    subst hr2
    rfl

/-- Witness for C7 at color (255,0,0) and its encoding "FF0000". -/
theorem color_round_trip_witness :
    DocStyle.set_run_color (mkRun "t") (ColorArg.rgb 255 0 0) =
      DocStyle.set_run_color (mkRun "t") (ColorArg.hexStr "FF0000") ∧
    (DocStyle.set_run_color (mkRun "t") (ColorArg.rgb 255 0 0)).map Run.color =
      .ok (some ⟨255, 0, 0⟩) := by
  have h := color_round_trip (mkRun "t") 255 0 0 (by decide) (by decide)
    (by decide)
  have hEnc : rgbHexEncoding 255 0 0 = "FF0000" := by decide
  constructor
  · rw [← hEnc]
    exact h.1
  · have hres : DocStyle.set_run_color (mkRun "t") (ColorArg.rgb 255 0 0) =
        .ok { text := "t", fontName := some defaultZhFont,
              rFonts := [(eastAsiaQn, defaultZhFont)],
              color := some ⟨255, 0, 0⟩ } := by decide
    rw [hres]
    have := h.2 _ hres
    simp [Except.map, this]

end DocDecorator
